import Mathlib

/-!
Verification of the trie-multiplexer HTTP router: a shallow embedding of the
Go sources (`triemux` package, `router.go`, the admin API handler) together
with proofs of the routing, fingerprint, reload and recovery properties.

Machine integers are modelled as `Nat` reduced mod `2 ^ 32` where the SHA-1
fingerprint needs 32-bit arithmetic; panics are modelled as `Except.error`;
the external route catalog (a mongo database) is modelled as data that is
either delivered whole or fails (connection loss / iteration error).
-/

set_option maxRecDepth 4000

namespace Alphagov

/-- Go map update as used for trie children and the backend table: replace
the binding at an existing key, otherwise add a new one. -/
def assocSet {α : Type} : List (String × α) → String → α → List (String × α)
  | [], k, v => [(k, v)]
  | (k', v') :: rest, k, v =>
    if k' = k then (k, v) :: rest else (k', v') :: assocSet rest k v

/-- Go map lookup on an association list. -/
def assocGet {α : Type} : List (String × α) → String → Option α
  | [], _ => none
  | (k', v) :: rest, k => if k' = k then some v else assocGet rest k

/-- Modelled from the spec: the `trie` package
(github.com/alphagov/router/trie) is not among the provided sources. A trie
node has children keyed by path segment plus an optional value (spec section
on the path trie). -/
inductive Trie (α : Type) : Type where
  | node (value : Option α) (children : List (String × Trie α)) : Trie α

/-- The empty trie: no value at the root, no children. -/
def Trie.empty {α : Type} : Trie α := .node none []

/-- Modelled from the spec: `Set(segments, value)` descends from the root,
creating missing children, and installs the value at the terminal node,
overwriting any prior value; setting at the empty sequence sets the root's
value. -/
def Trie.set {α : Type} : Trie α → List String → α → Trie α
  | .node _ cs, [], v => .node (some v) cs
  | .node val cs, seg :: rest, v =>
    let child := ((assocGet cs seg).getD Trie.empty).set rest v
    .node val (assocSet cs seg child)

/-- Modelled from the spec: `GetExact(segments)` descends and returns the
value at the terminal node if one is set, else reports a miss. -/
def Trie.get {α : Type} : Trie α → List String → Option α
  | .node v _, [] => v
  | .node _ cs, seg :: rest =>
    match assocGet cs seg with
    | none => none
    | some c => c.get rest

/-- Modelled from the spec: `GetLongestPrefix(segments)` descends segment by
segment, tracking the deepest ancestor (including the root) that carries a
value; on exhaustion of either the sequence or the tree it returns the
deepest tracked value, or a miss if none was ever seen. -/
def Trie.getLongestPrefix {α : Type} : Trie α → List String → Option α
  | .node v _, [] => v
  | .node v cs, seg :: rest =>
    match assocGet cs seg with
    | none => v
    | some c =>
      match c.getLongestPrefix rest with
      | some w => some w
      | none => v

/-- Go `strings.Split(s, "/")` over the character list: cut at every slash,
keeping the (possibly empty) pieces between cuts. `cur` holds the current
piece, in reverse. -/
def splitOnSlash (cs : List Char) (cur : List Char) : List String :=
  match cs with
  | [] => [String.mk cur.reverse]
  | ch :: rest =>
    if ch = '/' then String.mk cur.reverse :: splitOnSlash rest []
    else splitOnSlash rest (ch :: cur)

/-- `splitpath` (triemux): `strings.Split(path, "/")`, dropping the empty
items produced by leading, trailing or adjacent slashes. -/
def splitpath (path : String) : List String :=
  (splitOnSlash path.data []).filter (fun part => part ≠ "")

/-- UTF-8 encoding of a single code point (Go strings are UTF-8 encoded, so
these are the bytes a string contributes when written to the checksum
hash). -/
def utf8Bytes (c : Nat) : List Nat :=
  if c < 128 then [c]
  else if c < 2048 then [192 + c / 64, 128 + c % 64]
  else if c < 65536 then [224 + c / 4096, 128 + (c / 64) % 64, 128 + c % 64]
  else [240 + c / 262144, 128 + (c / 4096) % 64, 128 + (c / 64) % 64, 128 + c % 64]

/-- The byte sequence of a Go string. -/
def strBytes (s : String) : List Nat :=
  (s.data.map (fun ch => utf8Bytes ch.toNat)).flatten

/-! ### SHA-1 (Go `crypto/sha1`), on `Nat` words reduced mod `2 ^ 32` -/

/-- Reduce to a 32-bit word. -/
def w32 (x : Nat) : Nat := x % 4294967296

/-- 32-bit left rotation. -/
def rotl (n x : Nat) : Nat := w32 (x <<< n) ||| (w32 x >>> (32 - n))

/-- Big-endian 8-byte encoding of a length in bits. -/
def be64 (n : Nat) : List Nat :=
  [(n >>> 56) % 256, (n >>> 48) % 256, (n >>> 40) % 256, (n >>> 32) % 256,
   (n >>> 24) % 256, (n >>> 16) % 256, (n >>> 8) % 256, n % 256]

/-- Big-endian 4-byte encoding of a 32-bit word. -/
def be32 (n : Nat) : List Nat :=
  [(n >>> 24) % 256, (n >>> 16) % 256, (n >>> 8) % 256, n % 256]

/-- Big-endian word from a list of bytes. -/
def word32 (bs : List Nat) : Nat := bs.foldl (fun acc b => acc * 256 + b) 0

/-- Split a byte list into 64-byte blocks. -/
def chunksOf64 (l : List Nat) : List (List Nat) :=
  match l with
  | [] => []
  | b :: rest => ((b :: rest).take 64) :: chunksOf64 ((b :: rest).drop 64)
termination_by l.length
decreasing_by simp [List.length_drop]; omega

/-- Split a 64-byte block into 4-byte groups. -/
def chunksOf4 (l : List Nat) : List (List Nat) :=
  match l with
  | [] => []
  | b :: rest => ((b :: rest).take 4) :: chunksOf4 ((b :: rest).drop 4)
termination_by l.length
decreasing_by simp [List.length_drop]; omega

/-- SHA-1 message schedule: extend 16 words to 80. -/
def extendWords (ws : List Nat) : List Nat :=
  (List.range 64).foldl
    (fun acc _ =>
      let n := acc.length
      acc ++ [rotl 1 ((acc.getD (n - 3) 0) ^^^ (acc.getD (n - 8) 0) ^^^
                      (acc.getD (n - 14) 0) ^^^ (acc.getD (n - 16) 0))])
    ws

/-- One SHA-1 round: round index `i`, schedule word `w`. -/
def sha1Round (st : Nat × Nat × Nat × Nat × Nat) (i : Nat) (w : Nat) :
    Nat × Nat × Nat × Nat × Nat :=
  let (a, b, c, d, e) := st
  let f :=
    if i < 20 then (b &&& c) ||| ((b ^^^ 4294967295) &&& d)
    else if i < 40 then b ^^^ c ^^^ d
    else if i < 60 then (b &&& c) ||| (b &&& d) ||| (c &&& d)
    else b ^^^ c ^^^ d
  let k :=
    if i < 20 then 1518500249
    else if i < 40 then 1859775393
    else if i < 60 then 2400959708
    else 3395469782
  let temp := w32 (rotl 5 a + f + e + k + w)
  (temp, a, rotl 30 b, c, d)

/-- SHA-1 compression of one 64-byte block into the running state. -/
def sha1Block (h : Nat × Nat × Nat × Nat × Nat) (block : List Nat) :
    Nat × Nat × Nat × Nat × Nat :=
  let ws := extendWords ((chunksOf4 block).map word32)
  let (h0, h1, h2, h3, h4) := h
  let (a, b, c, d, e) :=
    ws.enum.foldl (fun st p => sha1Round st p.1 p.2) (h0, h1, h2, h3, h4)
  (w32 (h0 + a), w32 (h1 + b), w32 (h2 + c), w32 (h3 + d), w32 (h4 + e))

/-- SHA-1 padding: append `0x80`, zeros to 56 mod 64, then the bit length. -/
def sha1Pad (msg : List Nat) : List Nat :=
  let padLen := (64 - ((msg.length + 9) % 64)) % 64
  msg ++ [128] ++ List.replicate padLen 0 ++ be64 (8 * msg.length)

/-- SHA-1 digest (20 bytes) of a byte list. -/
def sha1 (msg : List Nat) : List Nat :=
  let blocks := chunksOf64 (sha1Pad msg)
  let h := blocks.foldl sha1Block
    (1732584193, 4023233417, 2562383102, 271733878, 3285377520)
  let (h0, h1, h2, h3, h4) := h
  be32 h0 ++ be32 h1 ++ be32 h2 ++ be32 h3 ++ be32 h4

/-! ### The trie multiplexer (`triemux` package) -/

/-- `muxEntry` (triemux): the value stored in the tries. The Go field
`prefix` is a Lean keyword and is rendered `pfx`. -/
structure muxEntry (α : Type) : Type where
  pfx : Bool
  handler : α
deriving DecidableEq

/-- `Mux` (triemux): three tries, a registration counter, and the running
checksum, modelled as the byte stream written to the SHA-1 hash so far
(`RouteChecksum` applies SHA-1 to it; a Go `hash.Hash` fed incrementally by
`Write` and finished with `Sum(nil)` digests exactly the concatenation of
everything written). The `sync.RWMutex` guards concurrent access in Go and
has no content in this sequential model. -/
structure Mux (α : Type) : Type where
  exactTrie : Trie (muxEntry α)
  prefixTrie : Trie (muxEntry α)
  suffixTrie : Trie (muxEntry α)
  count : Nat
  checksumMsg : List Nat

/-- `NewMux` (triemux): three empty tries, a fresh SHA-1 state. -/
def NewMux {α : Type} : Mux α :=
  { exactTrie := Trie.empty, prefixTrie := Trie.empty, suffixTrie := Trie.empty,
    count := 0, checksumMsg := [] }

/-- `Mux.lookup` (triemux): split the path into segments, build the reversed
segment list (the Go loop writing `reversePathSegments[last-i] = val` computes
the reversal), then consult suffix (longest prefix on reversed segments),
exact, and prefix (longest prefix) tries in that order, returning the handler
of the first hit. The `muxEntry` type assertion cannot fail in this typed
model. -/
def Mux.lookup {α : Type} (m : Mux α) (path : String) : Option α :=
  let pathSegments := splitpath path
  let reversePathSegments := pathSegments.reverse
  match m.suffixTrie.getLongestPrefix reversePathSegments with
  | some entry => some entry.handler
  | none =>
    match m.exactTrie.get pathSegments with
    | some entry => some entry.handler
    | none =>
      match m.prefixTrie.getLongestPrefix pathSegments with
      | some entry => some entry.handler
      | none => none

/-- The outcome of `Mux.ServeHTTP`: either the handler found by `lookup` is
invoked on the request, or `http.NotFound` responds with status 404. -/
inductive Dispatch (α : Type) : Type where
  | notFound (status : Nat)
  | hit (handler : α)
deriving DecidableEq

/-- `Mux.ServeHTTP` (triemux): dispatch the request path through `lookup`;
404 on miss. -/
def Mux.ServeHTTP {α : Type} (m : Mux α) (path : String) : Dispatch α :=
  match m.lookup path with
  | none => .notFound 404
  | some h => .hit h

/-- `Mux.addToStats` (triemux): increment the route count and write the path
bytes followed by the kind tag to the checksum hash. -/
def Mux.addToStats {α : Type} (m : Mux α) (path : String) (pfx sfx : Bool) :
    Mux α :=
  let m1 := { m with count := m.count + 1,
                     checksumMsg := m.checksumMsg ++ strBytes path }
  if pfx then { m1 with checksumMsg := m1.checksumMsg ++ strBytes "(prefix)" }
  else if sfx then { m1 with checksumMsg := m1.checksumMsg ++ strBytes "(suffix)" }
  else { m1 with checksumMsg := m1.checksumMsg ++ strBytes "(exact)" }

/-- `Mux.Handle` (triemux): record the registration in the stats, then set
the split path (unreversed, in every branch) in the trie selected by the
flags — `prefix` first, then `suffix`, else exact. -/
def Mux.Handle {α : Type} (m : Mux α) (path : String) (pfx sfx : Bool)
    (handler : α) : Mux α :=
  let m1 := m.addToStats path pfx sfx
  if pfx then
    { m1 with prefixTrie := m1.prefixTrie.set (splitpath path) ⟨true, handler⟩ }
  else if sfx then
    { m1 with suffixTrie := m1.suffixTrie.set (splitpath path) ⟨true, handler⟩ }
  else
    { m1 with exactTrie := m1.exactTrie.set (splitpath path) ⟨false, handler⟩ }

/-- `Mux.RouteCount` (triemux). -/
def Mux.RouteCount {α : Type} (m : Mux α) : Nat := m.count

/-- `Mux.RouteChecksum` (triemux): `checksum.Sum(nil)`, the SHA-1 digest of
every byte written so far. -/
def Mux.RouteChecksum {α : Type} (m : Mux α) : List Nat := sha1 m.checksumMsg

/-- Registering a whole list of routes in order (as the loader does). -/
def Mux.HandleList {α : Type} (m : Mux α)
    (rs : List (String × Bool × Bool × α)) : Mux α :=
  rs.foldl (fun acc r => acc.Handle r.1 r.2.1 r.2.2.1 r.2.2.2) m

/-- The byte stream the checksum hash receives for a given insertion
sequence of `(path, prefix flag, suffix flag)` triples. -/
def fingerprintBytes (rs : List (String × Bool × Bool)) : List Nat :=
  (rs.map (fun r =>
    strBytes r.1 ++
    strBytes (if r.2.1 then "(prefix)" else if r.2.2 then "(suffix)" else "(exact)"))).flatten

/-! ### Handlers, route records and the router facade (`router.go`) -/

/-- The handlers the route loader constructs (`handlers` package values and
the inline closures in `loadRoutes`): a reverse proxy to a backend URL, a
redirect, a 410 responder, and the `boom` diagnostic that panics. -/
inductive RHandler : Type where
  | backend (url : String)
  | redirect (source target : String) (pfx temporary : Bool)
  | gone
  | boom
deriving DecidableEq

/-- `Backend` record (router.go), bson fields of the `backends`
collection. -/
structure Backend : Type where
  BackendId : String
  BackendURL : String

/-- `Route` record (router.go), bson fields of the `routes` collection. -/
structure Route : Type where
  IncomingPath : String
  RouteType : String
  Handler : String
  BackendId : String
  RedirectTo : String
  RedirectType : String

/-- `Router.loadBackends` (router.go): for each backend record, skip it if
its URL does not parse (`url.Parse`, external; modelled by the `urlOk`
predicate), otherwise store the backend handler in the map keyed by
`backend_id`. -/
def loadBackends (urlOk : String → Bool) (recs : List Backend) :
    List (String × RHandler) :=
  recs.foldl
    (fun backends b =>
      if urlOk b.BackendURL then
        assocSet backends b.BackendId (RHandler.backend b.BackendURL)
      else backends)
    []

/-- `loadRoutes` (router.go): register each route record in catalog order.
`prefix`/`suffix` flags come from `route_type`; `backend` routes referencing
an unknown backend id and unknown handler kinds are skipped with a
warning. -/
def loadRoutes (routes : List Route) (mux : Mux RHandler)
    (backends : List (String × RHandler)) : Mux RHandler :=
  routes.foldl
    (fun m route =>
      let pfx := route.RouteType = "prefix"
      let sfx := route.RouteType = "suffix"
      if route.Handler = "backend" then
        match assocGet backends route.BackendId with
        | none => m
        | some handler => m.Handle route.IncomingPath pfx sfx handler
      else if route.Handler = "redirect" then
        let redirectTemporarily := route.RedirectType = "temporary"
        m.Handle route.IncomingPath pfx sfx
          (RHandler.redirect route.IncomingPath route.RedirectTo pfx
            redirectTemporarily)
      else if route.Handler = "gone" then
        m.Handle route.IncomingPath pfx sfx RHandler.gone
      else if route.Handler = "boom" then
        m.Handle route.IncomingPath pfx sfx RHandler.boom
      else m)
    mux

/-- A reload's view of the external mongo catalog: the dial can fail
(`mgo.Dial` error, turned into a panic by `ReloadRoutes`), and each
collection either delivers its records or fails during iteration
(`iter.Err()`, turned into a panic by the loaders). -/
structure Catalog : Type where
  dialOk : Bool
  backendRecords : Except String (List Backend)
  routeRecords : Except String (List Route)

/-- Does any step of the reload fail? -/
def Catalog.failing (cat : Catalog) : Bool :=
  match cat with
  | ⟨dialOk, .ok _, .ok _⟩ => !dialOk
  | _ => true

/-- `Router` (router.go): the mutable field is the reference to the active
multiplexer; the mongo coordinates, timeouts and logger handle do not vary
over the operations modelled here. -/
structure Router : Type where
  mux : Mux RHandler

/-- `Router.ReloadRoutes` (router.go): save the old mux; on any panic
(failed dial, failed iteration) the deferred recovery restores it. On
success, build a fresh mux — backends first, routes second — and flip the
`mux` reference to it. -/
def Router.ReloadRoutes (rt : Router) (urlOk : String → Bool)
    (cat : Catalog) : Router :=
  if cat.dialOk then
    match cat.backendRecords with
    | .error _ => rt
    | .ok backendRecs =>
      match cat.routeRecords with
      | .error _ => rt
      | .ok routeRecs =>
        { rt with
          mux := loadRoutes routeRecs NewMux (loadBackends urlOk backendRecs) }
  else rt

/-- A structured error log entry (`logger.LogFromClientRequest`): keyed to
the inbound request, with the `@fields` written by the recovery barrier. -/
structure LogEntry : Type where
  requestPath : String
  fields : List (String × String)
deriving DecidableEq

/-- What the client and the error log observe for one request. -/
structure Response : Type where
  status : Nat
  log : Option LogEntry
deriving DecidableEq

/-- Invoking a handler on a request: `boom` panics with `"Boom!!!"`
(router.go), `gone` writes 410, redirects write 302 (temporary) or 301, and
a backend handler returns whatever its upstream returns (modelled by the
`upstream` function). A panic is an `Except.error`. -/
def runHandler (upstream : String → Nat) : RHandler → Except String Nat
  | .backend url => .ok (upstream url)
  | .redirect _ _ _ temporary => .ok (if temporary then 302 else 301)
  | .gone => .ok 410
  | .boom => .error "Boom!!!"

/-- `Router.ServeHTTP` (router.go): delegate to the active mux's
`ServeHTTP`; the deferred recovery turns a handler panic into a structured
log entry (with an `error` field and `status` 500) plus a 500 response. -/
def Router.ServeHTTP (rt : Router) (upstream : String → Nat)
    (path : String) : Response :=
  match Mux.ServeHTTP rt.mux path with
  | .notFound s => { status := s, log := none }
  | .hit h =>
    match runHandler upstream h with
    | .ok s => { status := s, log := none }
    | .error msg =>
      { status := 500,
        log := some { requestPath := path,
                      fields := [("error", "panic: " ++ msg), ("status", "500")] } }

/-- Serving a sequence of requests: each is dispatched against the same
router state (`ServeHTTP` never mutates the router, and its recovery
barrier confines each request's panic to that request). -/
def Router.serveAll (rt : Router) (upstream : String → Nat)
    (paths : List String) : List Response :=
  paths.map (rt.ServeHTTP upstream)

/-! ### The admin API surface -/

/-- Hex digit character, lowercase (Go `fmt %x`). -/
def hexDigit (n : Nat) : Char :=
  if n < 10 then Char.ofNat (48 + n) else Char.ofNat (87 + n)

/-- One byte as two lowercase hex digits. -/
def hexByte (b : Nat) : String :=
  String.mk [hexDigit (b / 16), hexDigit (b % 16)]

/-- Go `fmt.Sprintf("%x", bytes)`: lowercase hex, two digits per byte. -/
def toHexBytes (bs : List Nat) : String :=
  String.join (bs.map hexByte)

/-- The JSON values the stats endpoint serializes. -/
inductive Json : Type where
  | str (s : String)
  | num (n : Nat)
  | obj (fields : List (String × Json))

/-- Indentation for `json.MarshalIndent(v, "", "  ")`. -/
def jsonIndent (n : Nat) : String := String.mk (List.replicate (2 * n) ' ')

mutual

/-- Go `json.MarshalIndent(v, "", "  ")` for the values at hand (object
keys already in Go's serialization order, i.e. sorted; the strings involved
need no JSON escaping). -/
def renderJson (ind : Nat) : Json → String
  | .str s => "\"" ++ s ++ "\""
  | .num n => toString n
  | .obj [] => "\x7b\x7d"
  | .obj (f :: fs) =>
    "\x7b\n" ++ String.intercalate ",\n" (renderFields (ind + 1) (f :: fs)) ++
    "\n" ++ jsonIndent ind ++ "\x7d"

/-- Render each field of an object at the given indentation. -/
def renderFields (ind : Nat) : List (String × Json) → List String
  | [] => []
  | (k, v) :: rest =>
    (jsonIndent ind ++ "\"" ++ k ++ "\": " ++ renderJson ind v) ::
    renderFields ind rest

end

/-- `Router.RouteStats` (router.go): a map with the active mux's route
count and hex-encoded checksum. Go serializes map keys in sorted order:
`"checksum" < "count"`. -/
def Router.RouteStats (rt : Router) : List (String × Json) :=
  [("checksum", Json.str (toHexBytes rt.mux.RouteChecksum)),
   ("count", Json.num rt.mux.RouteCount)]

/-- An admin endpoint response: status, the `Allow` header if set, and the
body bytes written. -/
structure ApiResponse : Type where
  status : Nat
  allow : Option String
  body : String
deriving DecidableEq

/-- The `/stats` handler (`newApiHandler`): non-GET methods get 405 with
`Allow: GET` and no body; GET marshals `{"routes": RouteStats()}` with
two-space indentation and writes it followed by a newline (Go's implicit
status on a plain `Write` is 200). -/
def apiStats (rt : Router) (method : String) : ApiResponse :=
  if method ≠ "GET" then { status := 405, allow := some "GET", body := "" }
  else
    { status := 200, allow := none,
      body := renderJson 0 (Json.obj [("routes", Json.obj rt.RouteStats)]) ++ "\n" }

/-- The `/reload` handler (`newApiHandler`): non-POST methods get 405 with
`Allow: POST`; POST runs `ReloadRoutes` and writes nothing, so the client
sees Go's implicit 200 with an empty body whatever the reload did. -/
def apiReload (rt : Router) (urlOk : String → Bool) (cat : Catalog)
    (method : String) : ApiResponse × Router :=
  if method ≠ "POST" then ({ status := 405, allow := some "POST", body := "" }, rt)
  else ({ status := 200, allow := none, body := "" }, rt.ReloadRoutes urlOk cat)

/-! ### Helper lemmas about the trie and the multiplexer -/

/-- Updating an association list then reading the same key yields the new
value. -/
theorem assocGet_assocSet_self {α : Type} (l : List (String × α)) (k : String)
    (v : α) : assocGet (assocSet l k v) k = some v := by
  induction l with
  | nil => simp [assocSet, assocGet]
  | cons head rest ih =>
    obtain ⟨k', v'⟩ := head
    by_cases h : k' = k
    · simp [assocSet, assocGet, h]
    · simp [assocSet, assocGet, h, ih]

/-- The empty trie always misses on longest-prefix lookup. -/
theorem trie_glp_empty {α : Type} (l : List String) :
    Trie.getLongestPrefix (Trie.empty (α := α)) l = none := by
  cases l <;> rfl

/-- The empty trie always misses on exact lookup. -/
theorem trie_get_empty {α : Type} (l : List String) :
    Trie.get (Trie.empty (α := α)) l = none := by
  cases l <;> rfl

/-- Setting the same segment sequence twice in a fresh trie is the same as
setting it once with the later value. -/
theorem trie_set_set {α : Type} (S : List String) (v1 v2 : α) :
    (Trie.empty.set S v1).set S v2 = Trie.empty.set S v2 := by
  induction S with
  | nil => rfl
  | cons s rest ih =>
    simp only [Trie.empty] at ih ⊢
    simp [Trie.set, assocGet, assocSet]
    exact ih

/-- In a fresh trie holding a single value at `S`, longest-prefix lookup
hits on every sequence extending `S`. -/
theorem trie_glp_set_append {α : Type} (S T : List String) (v : α) :
    (Trie.empty.set S v).getLongestPrefix (S ++ T) = some v := by
  induction S with
  | nil => cases T <;> rfl
  | cons s rest ih =>
    simp only [Trie.empty] at ih ⊢
    simp only [Trie.set, Trie.getLongestPrefix, assocGet, assocSet]
    simp [assocGet]
    have ih' : (Trie.empty.set rest v).getLongestPrefix (rest ++ T) = some v := ih
    rw [ih']

/-- `Set` then `GetExact` at the same segment sequence returns the value
just set, in any trie. -/
theorem trie_get_set_self {α : Type} (t : Trie α) (S : List String) (v : α) :
    (t.set S v).get S = some v := by
  induction S generalizing t with
  | nil => cases t; rfl
  | cons s rest ih =>
    cases t with
    | node val cs => simp [Trie.set, Trie.get, assocGet_assocSet_self, ih]

/-- One `Handle` call appends the path bytes and the kind tag to the
checksum stream. -/
theorem handle_checksumMsg {α : Type} (m : Mux α) (p : String) (b1 b2 : Bool)
    (h : α) :
    (m.Handle p b1 b2 h).checksumMsg =
      m.checksumMsg ++ (strBytes p ++
        strBytes (if b1 then "(prefix)" else if b2 then "(suffix)" else "(exact)")) := by
  cases b1 <;> cases b2 <;> simp [Mux.Handle, Mux.addToStats]

/-- One `Handle` call increments the route count. -/
theorem handle_count {α : Type} (m : Mux α) (p : String) (b1 b2 : Bool)
    (h : α) : (m.Handle p b1 b2 h).count = m.count + 1 := by
  cases b1 <;> cases b2 <;> rfl

/-- Registering a list of routes appends each route's path bytes and kind
tag, in order, to the checksum stream. -/
theorem handleList_checksumMsg {α : Type}
    (rs : List (String × Bool × Bool × α)) (m : Mux α) :
    (m.HandleList rs).checksumMsg =
      m.checksumMsg ++ fingerprintBytes (rs.map (fun r => (r.1, r.2.1, r.2.2.1))) := by
  induction rs generalizing m with
  | nil => simp [Mux.HandleList, fingerprintBytes]
  | cons r rest ih =>
    simp only [Mux.HandleList, List.foldl_cons] at ih ⊢
    rw [ih, handle_checksumMsg]
    simp [fingerprintBytes]

/-- Registering a list of routes adds its length to the route count. -/
theorem handleList_count {α : Type}
    (rs : List (String × Bool × Bool × α)) (m : Mux α) :
    (m.HandleList rs).count = m.count + rs.length := by
  induction rs generalizing m with
  | nil => simp [Mux.HandleList]
  | cons r rest ih =>
    simp only [Mux.HandleList, List.foldl_cons] at ih ⊢
    rw [ih, handle_count]
    simp [Nat.add_comm, Nat.add_assoc, Nat.add_left_comm]

/-! ### The claims -/

/-- C4: for every input string, `splitpath` yields only non-empty segments
(leading, trailing and adjacent slashes are collapsed), and `splitpath ""`,
`splitpath "/"` and `splitpath "///"` each yield the empty sequence. -/
theorem splitpath_spec :
    (∀ (s seg : String), seg ∈ splitpath s → seg ≠ "") ∧
    splitpath "" = [] ∧ splitpath "/" = [] ∧ splitpath "///" = [] := by
  refine ⟨?_, by decide, by decide, by decide⟩
  intro s seg hmem
  have := List.of_mem_filter hmem
  simpa using this

/-- Witness for splitpath_spec: the segment `"foo"` of `"/foo"` is
non-empty. -/
theorem splitpath_spec_witness :
    ("foo" ∈ splitpath "/foo") ∧ "foo" ≠ "" :=
  ⟨by decide, splitpath_spec.1 "/foo" "foo" (by decide)⟩

/-- C10: when `Handle` is called with both flags true, the prefix flag wins:
only the prefix trie is modified and the checksum receives the `"(prefix)"`
tag; and for every flag combination exactly one trie is modified (the trie
selected by the flags receives the `Set`, the other two are untouched). -/
theorem handle_flag_priority {α : Type} (m : Mux α) (p : String) (h : α) :
    ((m.Handle p true true h).prefixTrie = m.prefixTrie.set (splitpath p) ⟨true, h⟩ ∧
     (m.Handle p true true h).suffixTrie = m.suffixTrie ∧
     (m.Handle p true true h).exactTrie = m.exactTrie ∧
     (m.Handle p true true h).checksumMsg =
       m.checksumMsg ++ (strBytes p ++ strBytes "(prefix)")) ∧
    ((m.Handle p true false h).prefixTrie = m.prefixTrie.set (splitpath p) ⟨true, h⟩ ∧
     (m.Handle p true false h).suffixTrie = m.suffixTrie ∧
     (m.Handle p true false h).exactTrie = m.exactTrie ∧
     (m.Handle p true false h).checksumMsg =
       m.checksumMsg ++ (strBytes p ++ strBytes "(prefix)")) ∧
    ((m.Handle p false true h).suffixTrie = m.suffixTrie.set (splitpath p) ⟨true, h⟩ ∧
     (m.Handle p false true h).prefixTrie = m.prefixTrie ∧
     (m.Handle p false true h).exactTrie = m.exactTrie ∧
     (m.Handle p false true h).checksumMsg =
       m.checksumMsg ++ (strBytes p ++ strBytes "(suffix)")) ∧
    ((m.Handle p false false h).exactTrie = m.exactTrie.set (splitpath p) ⟨false, h⟩ ∧
     (m.Handle p false false h).prefixTrie = m.prefixTrie ∧
     (m.Handle p false false h).suffixTrie = m.suffixTrie ∧
     (m.Handle p false false h).checksumMsg =
       m.checksumMsg ++ (strBytes p ++ strBytes "(exact)")) := by
  refine ⟨⟨rfl, rfl, rfl, ?_⟩, ⟨rfl, rfl, rfl, ?_⟩, ⟨rfl, rfl, rfl, ?_⟩,
    ⟨rfl, rfl, rfl, ?_⟩⟩ <;> simp [Mux.Handle, Mux.addToStats]

/-- C9: the `/reload` endpoint responds 200 to every POST, whatever the
reload did: the response is the same for every catalog state, so a caller
cannot distinguish a successful reload from a failed one; the reload itself
is `ReloadRoutes`, which returns normally on every input. -/
theorem reload_endpoint_always_200 (rt : Router) (urlOk : String → Bool)
    (cat cat2 : Catalog) :
    (apiReload rt urlOk cat "POST").1.status = 200 ∧
    (apiReload rt urlOk cat "POST").1 = (apiReload rt urlOk cat2 "POST").1 ∧
    (apiReload rt urlOk cat "POST").2 = rt.ReloadRoutes urlOk cat :=
  ⟨rfl, rfl, rfl⟩

/-- C3: the route checksum is the SHA-1 digest of the concatenation, in
insertion order, of each `Handle` call's path bytes followed by its kind
tag — a function of the `(path, kind)` insertion sequence alone, so
identical insertion sequences give byte-equal fingerprints; and the three
registrations `("/", exact)`, `("/foo", prefix)`, `("/bar", exact)` yield
`RouteCount = 3` and checksum
`SHA-1("/(exact)" ++ "/foo(prefix)" ++ "/bar(exact)")`. -/
theorem fingerprint_insertion_history :
    (∀ (α : Type) (rs : List (String × Bool × Bool × α)),
       (NewMux.HandleList rs).RouteChecksum =
         sha1 (fingerprintBytes (rs.map (fun r => (r.1, r.2.1, r.2.2.1))))) ∧
    ((NewMux (α := Nat)).HandleList
        [("/", false, false, 0), ("/foo", true, false, 0), ("/bar", false, false, 0)]
      |>.RouteCount) = 3 ∧
    ((NewMux (α := Nat)).HandleList
        [("/", false, false, 0), ("/foo", true, false, 0), ("/bar", false, false, 0)]
      |>.RouteChecksum) =
      sha1 (strBytes "/(exact)" ++ strBytes "/foo(prefix)" ++ strBytes "/bar(exact)") := by
  refine ⟨?_, rfl, ?_⟩
  · intro α rs
    show sha1 _ = sha1 _
    rw [handleList_checksumMsg]
    simp [NewMux]
  · show sha1 _ = sha1 _
    congr 1

/-- C1 counterexample: register the two-segment suffix route `/a/b`. Its
segments are inserted unreversed, so `lookup` misses on `/x/a/b` — a path
whose segment sequence ends in `[a, b]` — and instead hits on `/x/b/a`,
whose segment sequence ends in the reversal `[b, a]`. -/
theorem suffix_reversal_refuted :
    (NewMux.Handle "/a/b" false true (37 : Nat)).lookup "/x/a/b" = none ∧
    (NewMux.Handle "/a/b" false true (37 : Nat)).lookup "/x/b/a" = some 37 := by
  constructor <;> decide

/-- C1 (amended): `Handle` inserts a suffix route's normalized segment
sequence S into the suffix trie unreversed, and consequently `Lookup` hits
(returning that route's handler, absent a longer competing suffix route) on
every request path whose normalized segment sequence ends in the reversal
of S — equivalently, whose reversed segment sequence begins with S. For a
single-segment S this coincides with ending in S. -/
theorem suffix_route_stored_forward {α : Type} (p q : String) (h : α)
    (hend : ∃ t, splitpath p ++ t = (splitpath q).reverse) :
    (NewMux.Handle p false true h).suffixTrie =
      Trie.empty.set (splitpath p) ⟨true, h⟩ ∧
    (NewMux.Handle p false true h).lookup q = some h := by
  obtain ⟨t, ht⟩ := hend
  refine ⟨rfl, ?_⟩
  have hst : ((NewMux (α := α)).Handle p false true h).suffixTrie =
      Trie.empty.set (splitpath p) ⟨true, h⟩ := rfl
  simp only [Mux.lookup]
  rw [hst, ← ht, trie_glp_set_append]

/-- Witness for suffix_route_stored_forward: the one-segment suffix route
`/info` matches `/x/info`. -/
theorem suffix_route_stored_forward_witness :
    (∃ t, splitpath "/info" ++ t = (splitpath "/x/info").reverse) ∧
    (NewMux.Handle "/info" false true (7 : Nat)).lookup "/x/info" = some 7 :=
  ⟨⟨["x"], by decide⟩,
   (suffix_route_stored_forward "/info" "/x/info" 7 ⟨["x"], by decide⟩).2⟩

/-- C2: `lookup` consults suffix (longest prefix on reversed segments),
then exact, then prefix (longest prefix), returning the first hit; when all
three miss, `Mux.ServeHTTP` dispatches not-found (404) and the router
responds 404; and an exact route on P beats a prefix route whose segments
are a proper prefix of P. -/
theorem lookup_precedence :
    (∀ (α : Type) (m : Mux α) (p : String) (e : muxEntry α),
       m.suffixTrie.getLongestPrefix (splitpath p).reverse = some e →
       m.lookup p = some e.handler) ∧
    (∀ (α : Type) (m : Mux α) (p : String) (e : muxEntry α),
       m.suffixTrie.getLongestPrefix (splitpath p).reverse = none →
       m.exactTrie.get (splitpath p) = some e →
       m.lookup p = some e.handler) ∧
    (∀ (α : Type) (m : Mux α) (p : String),
       m.suffixTrie.getLongestPrefix (splitpath p).reverse = none →
       m.exactTrie.get (splitpath p) = none →
       m.lookup p = (m.prefixTrie.getLongestPrefix (splitpath p)).map muxEntry.handler) ∧
    (∀ (α : Type) (m : Mux α) (p : String),
       m.lookup p = none → Mux.ServeHTTP m p = Dispatch.notFound 404) ∧
    (∀ (rt : Router) (upstream : String → Nat) (p : String),
       rt.mux.lookup p = none →
       rt.ServeHTTP upstream p = { status := 404, log := none }) ∧
    (∀ (α : Type) (pe pp : String) (he hp : α),
       (∃ t, t ≠ [] ∧ splitpath pp ++ t = splitpath pe) →
       ((NewMux.Handle pe false false he).Handle pp true false hp).lookup pe =
         some he) := by
  refine ⟨?_, ?_, ?_, ?_, ?_, ?_⟩
  · intro α m p e hsuf
    simp [Mux.lookup, hsuf]
  · intro α m p e hsuf hex
    simp [Mux.lookup, hsuf, hex]
  · intro α m p hsuf hex
    cases hpre : m.prefixTrie.getLongestPrefix (splitpath p) <;>
      simp [Mux.lookup, hsuf, hex, hpre]
  · intro α m p hmiss
    simp [Mux.ServeHTTP, hmiss]
  · intro rt upstream p hmiss
    simp [Router.ServeHTTP, Mux.ServeHTTP, hmiss]
  · intro α pe pp he hp hproper
    have hsuf : (((NewMux (α := α)).Handle pe false false he).Handle pp true false
        hp).suffixTrie = Trie.empty := rfl
    have hex : (((NewMux (α := α)).Handle pe false false he).Handle pp true false
        hp).exactTrie = Trie.empty.set (splitpath pe) ⟨false, he⟩ := rfl
    simp only [Mux.lookup]
    rw [hsuf, trie_glp_empty, hex, trie_get_set_self]

/-- Witness for lookup_precedence: concrete instances of each conjunct —
a suffix hit, an exact hit after a suffix miss, the prefix fallthrough, the
404 dispatch, and exact `/foo/bar` beating prefix `/foo`. -/
theorem lookup_precedence_witness :
    ((NewMux.Handle "/info" false true (5 : Nat)).suffixTrie.getLongestPrefix
        (splitpath "/a/info").reverse = some ⟨true, 5⟩) ∧
    (NewMux.Handle "/info" false true (5 : Nat)).lookup "/a/info" = some 5 ∧
    Mux.ServeHTTP (NewMux (α := Nat)) "/zzz" = Dispatch.notFound 404 ∧
    (Router.mk NewMux).ServeHTTP (fun _ => 200) "/zzz" =
      { status := 404, log := none } ∧
    (∃ t, t ≠ [] ∧ splitpath "/foo" ++ t = splitpath "/foo/bar") ∧
    ((NewMux.Handle "/foo/bar" false false (1 : Nat)).Handle "/foo" true false
        2).lookup "/foo/bar" = some 1 :=
  ⟨by decide,
   lookup_precedence.1 Nat _ "/a/info" ⟨true, 5⟩ (by decide),
   lookup_precedence.2.2.2.1 Nat NewMux "/zzz" (by decide),
   lookup_precedence.2.2.2.2.1 (Router.mk NewMux) (fun _ => 200) "/zzz" (by decide),
   ⟨["bar"], by decide, by decide⟩,
   lookup_precedence.2.2.2.2.2 Nat "/foo/bar" "/foo" 1 2 ⟨["bar"], by decide, by decide⟩⟩

/-- C7 counterexample: register the two-segment path `/a/b` twice as a
suffix route. The second handler does overwrite the first in the suffix
trie, but `Lookup` on `/a/b` itself returns nothing at all (the suffix trie
is probed with the reversed segments `[b, a]`), so the claim that `Lookup`
then returns the second handler for that path fails at kind = suffix. -/
theorem duplicate_suffix_lookup_miss :
    ((NewMux.Handle "/a/b" false true (1 : Nat)).Handle "/a/b" false true
      2).lookup "/a/b" = none := by
  decide

/-- C7 (amended): calling `Handle` twice with the same path and kind
overwrites the earlier handler at the same trie location: for exact and
prefix kinds `Lookup` on that path then returns the second handler, and for
suffix kind `Lookup` returns the second handler on every path the route
matches (those whose reversed segment sequence begins with the registered
segments — for a multi-segment registered path this does not include the
registered path itself). Each call still increments the route count and
appends to the fingerprint: after n `Handle` calls (duplicates included)
`RouteCount = n` and the checksum stream is the full insertion history. -/
theorem duplicate_handle_overwrite :
    (∀ (α : Type) (p : String) (h1 h2 : α),
       ((NewMux.Handle p false false h1).Handle p false false h2).lookup p =
         some h2) ∧
    (∀ (α : Type) (p : String) (h1 h2 : α),
       ((NewMux.Handle p true false h1).Handle p true false h2).lookup p =
         some h2) ∧
    (∀ (α : Type) (p q : String) (h1 h2 : α),
       (∃ t, splitpath p ++ t = (splitpath q).reverse) →
       ((NewMux.Handle p false true h1).Handle p false true h2).lookup q =
         some h2) ∧
    (∀ (α : Type) (rs : List (String × Bool × Bool × α)),
       (NewMux.HandleList rs).RouteCount = rs.length) ∧
    (∀ (α : Type) (rs : List (String × Bool × Bool × α)),
       (NewMux.HandleList rs).checksumMsg =
         fingerprintBytes (rs.map (fun r => (r.1, r.2.1, r.2.2.1)))) := by
  refine ⟨?_, ?_, ?_, ?_, ?_⟩
  · intro α p h1 h2
    have hsuf : (((NewMux (α := α)).Handle p false false h1).Handle p false false
        h2).suffixTrie = Trie.empty := rfl
    have hex : (((NewMux (α := α)).Handle p false false h1).Handle p false false
        h2).exactTrie = (Trie.empty.set (splitpath p) ⟨false, h1⟩).set
          (splitpath p) ⟨false, h2⟩ := rfl
    simp only [Mux.lookup]
    rw [hsuf, trie_glp_empty, hex, trie_get_set_self]
  · intro α p h1 h2
    have hsuf : (((NewMux (α := α)).Handle p true false h1).Handle p true false
        h2).suffixTrie = Trie.empty := rfl
    have hex : (((NewMux (α := α)).Handle p true false h1).Handle p true false
        h2).exactTrie = Trie.empty := rfl
    have hpre : (((NewMux (α := α)).Handle p true false h1).Handle p true false
        h2).prefixTrie = (Trie.empty.set (splitpath p) (muxEntry.mk true h1)).set
          (splitpath p) (muxEntry.mk true h2) := rfl
    have hglp : ((Trie.empty.set (splitpath p) (muxEntry.mk true h1)).set
        (splitpath p) (muxEntry.mk true h2)).getLongestPrefix (splitpath p) =
          some (muxEntry.mk true h2) := by
      rw [trie_set_set]
      have := trie_glp_set_append (splitpath p) [] (muxEntry.mk true h2)
      simpa using this
    simp only [Mux.lookup]
    rw [hsuf, trie_glp_empty, hex, trie_get_empty, hpre, hglp]
  · intro α p q h1 h2 hend
    obtain ⟨t, ht⟩ := hend
    have hsuf : (((NewMux (α := α)).Handle p false true h1).Handle p false true
        h2).suffixTrie = (Trie.empty.set (splitpath p) ⟨true, h1⟩).set
          (splitpath p) ⟨true, h2⟩ := rfl
    simp only [Mux.lookup]
    rw [hsuf, trie_set_set, ← ht, trie_glp_set_append]
  · intro α rs
    show (NewMux.HandleList rs).count = rs.length
    rw [handleList_count]
    simp [NewMux]
  · intro α rs
    rw [handleList_checksumMsg]
    simp [NewMux]

/-- Witness for duplicate_handle_overwrite: duplicate exact registrations of
`/foo` leave the second handler; duplicate suffix registrations of `/info`
leave the second handler on the matching path `/a/info`; two registrations
give count 2. -/
theorem duplicate_handle_overwrite_witness :
    ((NewMux.Handle "/foo" false false (1 : Nat)).Handle "/foo" false false
        2).lookup "/foo" = some 2 ∧
    (∃ t, splitpath "/info" ++ t = (splitpath "/a/info").reverse) ∧
    ((NewMux.Handle "/info" false true (1 : Nat)).Handle "/info" false true
        2).lookup "/a/info" = some 2 ∧
    ((NewMux (α := Nat)).HandleList
        [("/x", false, true, 3), ("/x", false, true, 4)]).RouteCount = 2 :=
  ⟨duplicate_handle_overwrite.1 Nat "/foo" 1 2,
   ⟨["a"], by decide⟩,
   duplicate_handle_overwrite.2.2.1 Nat "/info" "/a/info" 1 2 ⟨["a"], by decide⟩,
   duplicate_handle_overwrite.2.2.2.1 Nat
     [("/x", false, true, 3), ("/x", false, true, 4)]⟩

/-- C5: `ReloadRoutes` is atomic with respect to failure: when any step of
the reload fails (dial, backend iteration, route iteration), the router's
mux reference afterwards equals its value before, so every `lookup` result
is unchanged; only a reload that completes without failure replaces the
reference with the freshly built multiplexer. -/
theorem reload_atomic (rt : Router) (urlOk : String → Bool) (cat : Catalog) :
    (cat.failing = true →
       (rt.ReloadRoutes urlOk cat).mux = rt.mux ∧
       ∀ p, (rt.ReloadRoutes urlOk cat).mux.lookup p = rt.mux.lookup p) ∧
    (∀ backendRecs routeRecs,
       cat.dialOk = true →
       cat.backendRecords = .ok backendRecs →
       cat.routeRecords = .ok routeRecs →
       (rt.ReloadRoutes urlOk cat).mux =
         loadRoutes routeRecs NewMux (loadBackends urlOk backendRecs)) := by
  obtain ⟨dialOk, bR, rR⟩ := cat
  constructor
  · intro hfail
    cases dialOk
    · exact ⟨rfl, fun p => rfl⟩
    · cases bR with
      | error e => exact ⟨rfl, fun p => rfl⟩
      | ok bes =>
        cases rR with
        | error e => exact ⟨rfl, fun p => rfl⟩
        | ok routes => simp [Catalog.failing] at hfail
  · intro bes routes hdial hb hr
    cases dialOk
    · simp at hdial
    · cases hb
      cases hr
      rfl

/-- Witness for reload_atomic: a failed dial leaves the mux holding the
`/foo` route untouched; a successful reload of one `gone` route installs
the freshly built mux. -/
theorem reload_atomic_witness :
    (Catalog.failing ⟨false, .ok [], .ok []⟩ = true) ∧
    ((Router.mk (NewMux.Handle "/foo" false false RHandler.gone)).ReloadRoutes
        (fun _ => true) ⟨false, .ok [], .ok []⟩).mux.lookup "/foo" =
      (Router.mk (NewMux.Handle "/foo" false false RHandler.gone)).mux.lookup
        "/foo" ∧
    ((Router.mk (Mux.Handle NewMux "/old" false false RHandler.gone)).ReloadRoutes
        (fun _ => true)
        ⟨true, .ok [], .ok [⟨"/x", "", "gone", "", "", ""⟩]⟩).mux =
      loadRoutes [⟨"/x", "", "gone", "", "", ""⟩] NewMux
        (loadBackends (fun _ => true) []) :=
  ⟨by decide,
   ((reload_atomic (Router.mk (NewMux.Handle "/foo" false false RHandler.gone))
       (fun _ => true) ⟨false, .ok [], .ok []⟩).1 (by decide)).2 "/foo",
   (reload_atomic (Router.mk (Mux.Handle NewMux "/old" false false RHandler.gone))
       (fun _ => true) ⟨true, .ok [], .ok [⟨"/x", "", "gone", "", "", ""⟩]⟩).2
     [] [⟨"/x", "", "gone", "", "", ""⟩] rfl rfl rfl⟩

/-- C6: when the dispatched handler panics (the `boom` route), the router's
recovery barrier converts the panic into a 500 response plus a structured
error log entry keyed to the inbound request and carrying a status-500
field; the panic never escapes `ServeHTTP` (which is a total function of
the unchanged router state), so any later request gets exactly the response
it would get on its own. -/
theorem panic_barrier_500 (rt : Router) (upstream : String → Nat) (p : String)
    (hboom : rt.mux.lookup p = some RHandler.boom) :
    rt.ServeHTTP upstream p =
      { status := 500,
        log := some { requestPath := p,
                      fields := [("error", "panic: Boom!!!"), ("status", "500")] } } ∧
    (∃ entry, (rt.ServeHTTP upstream p).log = some entry ∧
       entry.requestPath = p ∧ ("status", "500") ∈ entry.fields) ∧
    (∀ q, rt.serveAll upstream [p, q] =
       [rt.ServeHTTP upstream p, rt.ServeHTTP upstream q]) := by
  have h1 : rt.ServeHTTP upstream p =
      { status := 500,
        log := some { requestPath := p,
                      fields := [("error", "panic: Boom!!!"), ("status", "500")] } } := by
    simp [Router.ServeHTTP, Mux.ServeHTTP, hboom, runHandler]
  refine ⟨h1,
    ⟨{ requestPath := p,
       fields := [("error", "panic: Boom!!!"), ("status", "500")] },
     ?_, rfl, ?_⟩,
    fun q => rfl⟩
  · rw [h1]
  · simp

/-- Witness for panic_barrier_500: a router with the `boom` route at
`/boom` responds 500 with the logged panic. -/
theorem panic_barrier_500_witness :
    ((Router.mk (NewMux.Handle "/boom" false false RHandler.boom)).mux.lookup
        "/boom" = some RHandler.boom) ∧
    (Router.mk (NewMux.Handle "/boom" false false RHandler.boom)).ServeHTTP
        (fun _ => 200) "/boom" =
      { status := 500,
        log := some { requestPath := "/boom",
                      fields := [("error", "panic: Boom!!!"), ("status", "500")] } } :=
  ⟨by decide,
   (panic_barrier_500 (Router.mk (NewMux.Handle "/boom" false false
       RHandler.boom)) (fun _ => 200) "/boom" (by decide)).1⟩

/-- C8: a GET on `/stats` responds 200 with the indented JSON serialization
of `{"routes": {"count": N, "checksum": hex}}` — `N` the active mux's
`RouteCount`, the checksum its hex-encoded `RouteChecksum` — followed by a
trailing newline; any non-GET method responds 405 with `Allow: GET`. -/
theorem stats_endpoint_spec (rt : Router) (method : String) :
    (apiStats rt "GET").status = 200 ∧
    (apiStats rt "GET").body =
      renderJson 0 (Json.obj [("routes", Json.obj rt.RouteStats)]) ++ "\n" ∧
    assocGet rt.RouteStats "count" = some (Json.num rt.mux.RouteCount) ∧
    assocGet rt.RouteStats "checksum" =
      some (Json.str (toHexBytes rt.mux.RouteChecksum)) ∧
    (method ≠ "GET" →
       (apiStats rt method).status = 405 ∧
       (apiStats rt method).allow = some "GET") := by
  refine ⟨rfl, rfl, rfl, rfl, fun hm => ?_⟩
  constructor <;> simp [apiStats, hm]

/-- Witness for stats_endpoint_spec: POST on `/stats` gets 405 with
`Allow: GET`. -/
theorem stats_endpoint_spec_witness :
    ("POST" ≠ "GET") ∧
    (apiStats (Router.mk (NewMux (α := RHandler))) "POST").status = 405 ∧
    (apiStats (Router.mk (NewMux (α := RHandler))) "POST").allow = some "GET" :=
  ⟨by decide,
   ((stats_endpoint_spec (Router.mk NewMux) "POST").2.2.2.2 (by decide)).1,
   ((stats_endpoint_spec (Router.mk NewMux) "POST").2.2.2.2 (by decide)).2⟩

end Alphagov
